import Mathlib

/-
  Verification of the bitter-coffee multi-tenant ledger.

  The repository's src/ contains the persistence and HTTP plumbing
  (schema.ts, migrations.ts, database.ts, handleError.ts, app.ts entity
  declarations).  The double-entry core described by the specification
  (transaction validator, ledger state machine, balance projector,
  account hierarchy resolver) is declared only through its data model;
  those operations are modelled from the spec as marked on each
  definition.  Everything else is translated from the source files.
-/

namespace Ledger

/-- Transaction lifecycle status, from the TransactionStatus union type in
src/ledger/src/app.ts and the status column of the transactions table. -/
inductive TransactionStatus
| PENDING
| POSTED
| CANCELLED
deriving DecidableEq, Repr

/-- Entry direction, from the TransactionDirection union type in
src/ledger/src/app.ts: CREDIT increases, DEBIT decreases an account balance. -/
inductive TransactionDirection
| CREDIT
| DEBIT
deriving DecidableEq, Repr

/-- Modelled from the spec: a stored transaction entry (section 3).  The ledger
core is absent from src/; app.ts only declares the entry shape.  Amounts are
integers in the smallest currency unit, as the spec mandates. -/
structure TransactionEntry where
  direction : TransactionDirection
  amount : ℤ
deriving DecidableEq, Repr

/-- Modelled from the spec: the core Transaction entity (section 3): identity,
owning account id, memo, currency, external id, lifecycle status and the owned
entries.  The in-memory type declared in app.ts lacks the status field (see
appTransactionFields); the persisted row carries it. -/
structure Transaction where
  id : String
  account_id : String
  memo : String
  currency : String
  external_id : String
  status : TransactionStatus
  entries : List TransactionEntry
deriving DecidableEq, Repr

/-- Error taxonomy from the spec (section 7); the repository declares no error
types of its own beyond generic Error. -/
inductive LedgerError
| InsufficientEntries
| InvalidAmount
| UnsupportedCurrency
| UnbalancedTransaction (diff : ℤ)
| AccountNotEligible
| InvalidTransition (current : TransactionStatus)
| HierarchyCorrupt
| CyclicHierarchy
| NotFound
deriving DecidableEq, Repr

/-- Amount contributed by an entry when its direction matches d, else 0. -/
def entryAmountIf (d : TransactionDirection) (e : TransactionEntry) : ℤ :=
  if e.direction = d then e.amount else 0

/-- Sum of the amounts of the entries with direction d, exact integer arithmetic. -/
def sumDirection (d : TransactionDirection) (entries : List TransactionEntry) : ℤ :=
  (entries.map (entryAmountIf d)).sum

/-- Sum of the DEBIT entry amounts. -/
def sumDebits (entries : List TransactionEntry) : ℤ :=
  sumDirection TransactionDirection.DEBIT entries

/-- Sum of the CREDIT entry amounts. -/
def sumCredits (entries : List TransactionEntry) : ℤ :=
  sumDirection TransactionDirection.CREDIT entries

/-- Signed difference sum(debits) - sum(credits) of a stored transaction. -/
def txDiff (t : Transaction) : ℤ := sumDebits t.entries - sumCredits t.entries

/-- Modelled from the spec: postTransaction (section 4.3), absent from src/.
Re-validates balance against the currently stored entries, transitions
PENDING to POSTED, fails with InvalidTransition when not currently PENDING
and with UnbalancedTransaction (signed difference) when unbalanced. -/
def postTransaction (t : Transaction) : Except LedgerError Transaction :=
  if t.status ≠ TransactionStatus.PENDING then
    Except.error (LedgerError.InvalidTransition t.status)
  else if txDiff t ≠ 0 then
    Except.error (LedgerError.UnbalancedTransaction (txDiff t))
  else
    Except.ok { t with status := TransactionStatus.POSTED }

/-- Modelled from the spec: cancelTransaction (section 4.3), absent from src/.
Transitions PENDING to CANCELLED, fails with InvalidTransition otherwise. -/
def cancelTransaction (t : Transaction) : Except LedgerError Transaction :=
  if t.status ≠ TransactionStatus.PENDING then
    Except.error (LedgerError.InvalidTransition t.status)
  else
    Except.ok { t with status := TransactionStatus.CANCELLED }

/-- Stored state of a transaction after an attempted post: on failure the
atomic unit of work commits nothing, so the row is unchanged. -/
def applyPost (t : Transaction) : Transaction :=
  match postTransaction t with
  | Except.ok u => u
  | Except.error _ => t

/-- Stored state of a transaction after an attempted cancel: on failure the
atomic unit of work commits nothing, so the row is unchanged. -/
def applyCancel (t : Transaction) : Transaction :=
  match cancelTransaction t with
  | Except.ok u => u
  | Except.error _ => t

/-- Modelled from the spec: an incoming draft entry (section 4.2).  The wire
amount is an arbitrary numeric value (a TypeScript number), modelled as an
exact rational, which the validator constrains to a positive integer. -/
structure DraftEntry where
  direction : TransactionDirection
  amount : ℚ
deriving DecidableEq, Repr

/-- Whether a draft amount is a positive integer (spec section 4.2 check 2). -/
def positiveIntegralAmount (q : ℚ) : Bool :=
  decide (0 < q) && decide (q.den = 1)

/-- Supported currency set, from the Currency type in src/ledger/src/app.ts
(currently only USD). -/
def supportedCurrencies : List String := ["USD"]

/-- Modelled from the spec: an in-memory transaction draft handed to the
validator (section 4.2); the ledger core is absent from src/. -/
structure TransactionDraft where
  account_id : String
  memo : String
  currency : String
  external_id : String
  entries : List DraftEntry
deriving DecidableEq, Repr

/-- Account data consulted by validator check 5: owning tenant and status. -/
structure AccountInfo where
  tenant_id : String
  active : Bool
deriving DecidableEq, Repr

/-- Amount contributed by a draft entry when its direction matches d, else 0. -/
def draftAmountIf (d : TransactionDirection) (e : DraftEntry) : ℚ :=
  if e.direction = d then e.amount else 0

/-- Signed difference sum(debits) - sum(credits) over draft entries. -/
def draftDiff (entries : List DraftEntry) : ℚ :=
  (entries.map (draftAmountIf TransactionDirection.DEBIT)).sum
    - (entries.map (draftAmountIf TransactionDirection.CREDIT)).sum

/-- Modelled from the spec: the Transaction Validator (section 4.2), absent
from src/.  Pure, ordered checks, first failure wins: minimum entry count,
positive integer amounts, supported currency, balance with the signed
difference reported, owning account exists and is ACTIVE. -/
def validate (lookup : String → Option AccountInfo) (d : TransactionDraft) :
    Except LedgerError Unit :=
  if d.entries.length < 2 then
    Except.error LedgerError.InsufficientEntries
  else if !(d.entries.all fun e => positiveIntegralAmount e.amount) then
    Except.error LedgerError.InvalidAmount
  else if !(supportedCurrencies.contains d.currency) then
    Except.error LedgerError.UnsupportedCurrency
  else if draftDiff d.entries ≠ 0 then
    Except.error (LedgerError.UnbalancedTransaction (draftDiff d.entries).num)
  else
    match lookup d.account_id with
    | none => Except.error LedgerError.AccountNotEligible
    | some a =>
        if a.active then Except.ok () else Except.error LedgerError.AccountNotEligible

/-- A validated draft entry persisted in the smallest currency unit; check 2
guarantees the amount is integral, so its numerator is its exact value. -/
def toEntry (e : DraftEntry) : TransactionEntry :=
  { direction := e.direction, amount := e.amount.num }

/-- Modelled from the spec: createTransaction (section 4.3), absent from src/.
Runs the validator and persists the draft atomically in PENDING; fails with
the validator's error and writes nothing on any check failure. -/
def createTransaction (lookup : String → Option AccountInfo) (newId : String)
    (d : TransactionDraft) : Except LedgerError Transaction :=
  match validate lookup d with
  | Except.error e => Except.error e
  | Except.ok _ =>
      Except.ok { id := newId, account_id := d.account_id, memo := d.memo,
                  currency := d.currency, external_id := d.external_id,
                  status := TransactionStatus.PENDING,
                  entries := d.entries.map toEntry }

/-- Modelled from the spec: serialized execution of a concurrent
postTransaction and cancelTransaction pair on the same transaction, post
committing first (section 5 mandates the two atomic transitions serialize).
Returns both call results and the final stored state. -/
def runPostThenCancel (t : Transaction) :
    Except LedgerError Transaction × Except LedgerError Transaction × Transaction :=
  let r1 := postTransaction t
  let t1 := applyPost t
  let r2 := cancelTransaction t1
  let t2 := applyCancel t1
  (r1, r2, t2)

/-- Modelled from the spec: serialized execution of a concurrent
postTransaction and cancelTransaction pair, cancel committing first. -/
def runCancelThenPost (t : Transaction) :
    Except LedgerError Transaction × Except LedgerError Transaction × Transaction :=
  let r1 := cancelTransaction t
  let t1 := applyCancel t
  let r2 := postTransaction t1
  let t2 := applyPost t1
  (r1, r2, t2)

/-- Modelled from the spec: iterated step of the stored parent relation used by
the Account Hierarchy Resolver (section 4.1), which is absent from src/.
parentIter k o follows the parent link k times starting from o, none meaning a
root has been passed. -/
def parentIter {α : Type} (parent : α → Option α) : Nat → Option α → Option α
| 0, o => o
| k + 1, o => parentIter parent k (o.bind parent)

/-- Modelled from the spec: the fuel-bounded ancestor walk of ancestorsOf
(section 4.1), absent from src/.  Collects the chain nearest-first, stops at a
root (no parent), and fails with HierarchyCorrupt when the fuel bound is
exceeded, guarding against cycles written by a racing writer. -/
def ancestorsWalk {α : Type} (parent : α → Option α) :
    Nat → Option α → Except LedgerError (List α)
| _, none => Except.ok []
| 0, some _ => Except.error LedgerError.HierarchyCorrupt
| fuel + 1, some a =>
    match ancestorsWalk parent fuel (parent a) with
    | Except.ok l => Except.ok (a :: l)
    | Except.error e => Except.error e

/-- Modelled from the spec: ancestorsOf (section 4.1), absent from src/.
Returns the ordered ancestor chain of accountId, nearest-first, bounding the
traversal by tenantSize, the total number of accounts in the tenant. -/
def ancestorsOf {α : Type} (parent : α → Option α) (tenantSize : Nat)
    (accountId : α) : Except LedgerError (List α) :=
  ancestorsWalk parent tenantSize (parent accountId)

/-- Signed value of an entry in a balance: CREDIT increases the balance,
DEBIT decreases it (spec section 4.4). -/
def entrySigned (e : TransactionEntry) : ℤ :=
  match e.direction with
  | TransactionDirection.CREDIT => e.amount
  | TransactionDirection.DEBIT => - e.amount

/-- Contribution of one stored transaction to an account's balance: only a
POSTED transaction owned by the account contributes (spec section 4.4). -/
def txContribution (acct : String) (t : Transaction) : ℤ :=
  if t.account_id = acct ∧ t.status = TransactionStatus.POSTED then
    (t.entries.map entrySigned).sum
  else 0

/-- Modelled from the spec: the Balance Projector's own-entries fold
(section 4.4), absent from src/: fold the POSTED transactions' entries for the
account, CREDIT positive, DEBIT negative. -/
def balanceOfOwn (acct : String) (txs : List Transaction) : ℤ :=
  (txs.map (txContribution acct)).sum

/-- Modelled from the spec: whether b is the queried account or one of its
descendants, i.e. accounts whose ancestor chain contains it (the inverse of
ancestorsOf, section 4.4). -/
def isDescendantOrSelf (parent : String → Option String) (tenantSize : Nat)
    (root b : String) : Bool :=
  b == root ||
    (match ancestorsOf parent tenantSize b with
     | Except.ok l => l.contains root
     | Except.error _ => false)

/-- Modelled from the spec: balanceOf (section 4.4), absent from src/.  With
includeDescendants the balances of the account and all its descendants are
aggregated; otherwise only the account's own POSTED entries are folded. -/
def balanceOf (parent : String → Option String) (accounts : List String)
    (acct : String) (includeDescendants : Bool) (txs : List Transaction) : ℤ :=
  if includeDescendants then
    ((accounts.filter fun b =>
        isDescendantOrSelf parent accounts.length acct b).map
      fun b => balanceOfOwn b txs).sum
  else
    balanceOfOwn acct txs

/-- Schema state of the sqlite store consulted by migrations.ts: each table
name maps to its column list when the table exists. -/
abbrev Store : Type := String → Option (List String)

/-- Embeds tableExists from src/ledger/src/db/migrations.ts: the table is
present in sqlite_master. -/
def tableExists (s : Store) (tableName : String) : Bool :=
  (s tableName).isSome

/-- Embeds verifyTableSchema from src/ledger/src/db/migrations.ts: every
expected column occurs among the existing columns (missingColumns is empty);
a missing table yields false. -/
def verifyTableSchema (s : Store) (tableName : String)
    (expectedColumns : List String) : Bool :=
  match s tableName with
  | some existingColumns => expectedColumns.all fun c => existingColumns.contains c
  | none => false

/-- One table handled by migrations.ts: its name, the expectedColumns list the
source checks against, and the columns its CREATE TABLE statement adds. -/
structure TableSpec where
  tableName : String
  expectedColumns : List String
  createdColumns : List String
deriving DecidableEq, Repr

/-- Outcome of a migration run: resulting schema state, the DDL executed
(names of tables created), and whether an error was thrown. -/
structure MigOutcome where
  store : Store
  ddl : List String
  failed : Bool

/-- Embeds the shared body of createTenantsTable, createAccountsTable,
createTransactionsTable and createTransactionEntriesTable in migrations.ts:
an existing table with a valid schema is left alone, an existing table with a
missing column throws, a missing table is created with the spec's columns. -/
def createTableIfMissing (spec : TableSpec) (s : Store) : MigOutcome :=
  if tableExists s spec.tableName then
    if verifyTableSchema s spec.tableName spec.expectedColumns then
      { store := s, ddl := [], failed := false }
    else
      { store := s, ddl := [], failed := true }
  else
    { store := fun n => if n = spec.tableName then some spec.createdColumns else s n,
      ddl := [spec.tableName], failed := false }

/-- The tenants table of migrations.ts createTenantsTable. -/
def tenantsTable : TableSpec :=
  { tableName := "tenants",
    expectedColumns := ["id", "name", "status", "created_at", "updated_at"],
    createdColumns := ["id", "name", "status", "created_at", "updated_at"] }

/-- The accounts table of migrations.ts createAccountsTable. -/
def accountsTable : TableSpec :=
  { tableName := "accounts",
    expectedColumns := ["id", "tenant_id", "name", "status", "parent_account_id",
                        "created_at", "updated_at"],
    createdColumns := ["id", "tenant_id", "name", "status", "parent_account_id",
                       "created_at", "updated_at"] }

/-- The transactions table of migrations.ts createTransactionsTable. -/
def transactionsTable : TableSpec :=
  { tableName := "transactions",
    expectedColumns := ["id", "account_id", "memo", "currency", "external_id",
                        "status", "created_at", "updated_at"],
    createdColumns := ["id", "account_id", "memo", "currency", "external_id",
                       "status", "created_at", "updated_at"] }

/-- The transaction_entries table of migrations.ts createTransactionEntriesTable. -/
def transactionEntriesTable : TableSpec :=
  { tableName := "transaction_entries",
    expectedColumns := ["id", "transaction_id", "direction", "amount",
                        "created_at", "updated_at"],
    createdColumns := ["id", "transaction_id", "direction", "amount",
                       "created_at", "updated_at"] }

/-- The four tables migrateToLatest processes, in source order. -/
def migrationTables : List TableSpec :=
  [tenantsTable, accountsTable, transactionsTable, transactionEntriesTable]

/-- Sequential execution of the table migrations: a thrown error aborts the
remaining steps, and state changes already made persist (no rollback in
migrations.ts). -/
def runMigrations : List TableSpec → Store → MigOutcome
| [], s => { store := s, ddl := [], failed := false }
| spec :: rest, s =>
    let r1 := createTableIfMissing spec s
    if r1.failed then r1
    else
      let r2 := runMigrations rest r1.store
      { store := r2.store, ddl := r1.ddl ++ r2.ddl, failed := r2.failed }

/-- Embeds migrateToLatest from src/ledger/src/db/migrations.ts: runs the four
table migrations in order, rethrowing the first failure. -/
def migrateToLatest (s : Store) : MigOutcome :=
  runMigrations migrationTables s

/-- Column names and sqlite column types of the transaction_entries table as
created by createTransactionEntriesTable in src/ledger/src/db/migrations.ts
(lines 224-241); the amount column is declared with type real. -/
def transactionEntriesColumnTypes : List (String × String) :=
  [("id", "text"), ("transaction_id", "text"), ("direction", "text"),
   ("amount", "real"), ("created_at", "text"), ("updated_at", "text")]

/-- Whether a numeric value is an integer (denominator one). -/
def isIntegerValued (q : ℚ) : Bool := q.den == 1

/-- Field names of the in-memory Transaction type declared in
src/ledger/src/app.ts (lines 111-128).  The declaration has no status field. -/
def appTransactionFields : List String :=
  ["id", "account_id", "memo", "entries", "currency", "external_id",
   "created_at", "updated_at"]

/-- Field names of the TransactionsTable interface in
src/ledger/src/db/schema.ts (lines 21-30), the persisted transaction row. -/
def dbTransactionsTableFields : List String :=
  ["id", "account_id", "memo", "currency", "external_id", "status",
   "created_at", "updated_at"]

/-- Values of the status union type of TransactionsTable in schema.ts. -/
def dbTransactionStatusValues : List String := ["PENDING", "POSTED", "CANCELLED"]

/-- Default of the transactions.status column in migrations.ts line 187. -/
def transactionsStatusDefault : String := "PENDING"

/-- Values of the NODE_ENV variable distinguished by the source. -/
inductive NodeEnv
| development
| production
| test
deriving DecidableEq, Repr

/-- A thrown JavaScript Error as seen by the error middleware: its message and
optional stack trace. -/
structure JsError where
  message : String
  stack : Option String
deriving DecidableEq, Repr

/-- The JSON error response of src/ledger/src/types/response.ts as produced by
handleError: HTTP status code and body message. -/
structure ErrorResponse where
  statusCode : Nat
  message : String
deriving DecidableEq, Repr

/-- Embeds handleError from src/ledger/src/middlewares/handleError.ts: status
500 when the response status is still 200, the body message is the error's own
message, and the stack is written to the console only when NODE_ENV is
development.  The boolean records whether anything was logged. -/
def handleError (err : JsError) (resStatusCode : Nat) (nodeEnv : NodeEnv) :
    ErrorResponse × Bool :=
  let statusCode := if resStatusCode ≠ 200 then resStatusCode else 500
  let logged := err.stack.isSome && (nodeEnv == NodeEnv.development)
  ({ statusCode := statusCode, message := err.message }, logged)

/-- Module-level state of src/ledger/src/db/database.ts: the cached Kysely
handle (none when not yet constructed or closed) and a counter supplying
distinct identities to newly constructed handles. -/
structure DbState where
  db : Option Nat
  nextHandle : Nat
deriving DecidableEq, Repr

/-- Embeds getDatabase from src/ledger/src/db/database.ts: on the first call
the handle is constructed and cached in the module-level db variable; later
calls return the cached handle unchanged. -/
def getDatabase (s : DbState) : Nat × DbState :=
  match s.db with
  | some h => (h, s)
  | none => (s.nextHandle, { db := some s.nextHandle, nextHandle := s.nextHandle + 1 })

/-- Embeds closeDatabase from src/ledger/src/db/database.ts: destroys the
cached handle, if any, and resets the module-level variable to null. -/
def closeDatabase (s : DbState) : DbState :=
  match s.db with
  | some _ => { db := none, nextHandle := s.nextHandle }
  | none => s

/-- A debit entry with the given amount, for concrete evaluations. -/
def wEntryD (n : ℤ) : TransactionEntry :=
  { direction := TransactionDirection.DEBIT, amount := n }

/-- A credit entry with the given amount, for concrete evaluations. -/
def wEntryC (n : ℤ) : TransactionEntry :=
  { direction := TransactionDirection.CREDIT, amount := n }

/-- A concrete balanced pending transaction. -/
def wTxBalanced : Transaction :=
  { id := "tx1", account_id := "acct1", memo := "m", currency := "USD",
    external_id := "e1", status := TransactionStatus.PENDING,
    entries := [wEntryD 1000, wEntryC 1000] }

/-- A concrete unbalanced pending transaction (1000 debit against 900 credit). -/
def wTxUnbalanced : Transaction :=
  { wTxBalanced with entries := [wEntryD 1000, wEntryC 900] }

/-- A concrete posted transaction. -/
def wTxPosted : Transaction :=
  { wTxBalanced with status := TransactionStatus.POSTED }

/-- A concrete parent relation: account b is a child of the root account a. -/
def wParent : String → Option String :=
  fun s => if s = "b" then some "a" else none

/-- An account lookup resolving every id to an active account. -/
def wLookup : String → Option AccountInfo :=
  fun _ => some { tenant_id := "t1", active := true }

/-- A draft with a non-integer amount on both legs. -/
def wHalfDraft : TransactionDraft :=
  { account_id := "acct1", memo := "m", currency := "USD", external_id := "e2",
    entries := [{ direction := TransactionDirection.DEBIT, amount := mkRat 1 2 },
                { direction := TransactionDirection.CREDIT, amount := mkRat 1 2 }] }

/-- A draft with zero amounts. -/
def wZeroDraft : TransactionDraft :=
  { wHalfDraft with
    entries := [{ direction := TransactionDirection.DEBIT, amount := 0 },
                { direction := TransactionDirection.CREDIT, amount := 0 }] }

/-- A draft with negative amounts. -/
def wNegDraft : TransactionDraft :=
  { wHalfDraft with
    entries := [{ direction := TransactionDirection.DEBIT, amount := -5 },
                { direction := TransactionDirection.CREDIT, amount := -5 }] }

/-- A store holding all four migration tables with their expected columns. -/
def wStore : Store := fun n =>
  if n = "tenants" then some tenantsTable.expectedColumns
  else if n = "accounts" then some accountsTable.expectedColumns
  else if n = "transactions" then some transactionsTable.expectedColumns
  else if n = "transaction_entries" then some transactionEntriesTable.expectedColumns
  else none

lemma postTransaction_pending_balanced (t : Transaction)
    (hs : t.status = TransactionStatus.PENDING) (hd : txDiff t = 0) :
    postTransaction t = Except.ok { t with status := TransactionStatus.POSTED } := by
  simp [postTransaction, hs, hd]

lemma postTransaction_pending_unbalanced (t : Transaction)
    (hs : t.status = TransactionStatus.PENDING) (hd : txDiff t ≠ 0) :
    postTransaction t = Except.error (LedgerError.UnbalancedTransaction (txDiff t)) := by
  simp [postTransaction, hs, hd]

lemma postTransaction_not_pending (t : Transaction)
    (hs : t.status ≠ TransactionStatus.PENDING) :
    postTransaction t = Except.error (LedgerError.InvalidTransition t.status) := by
  simp [postTransaction, hs]

lemma cancelTransaction_pending (t : Transaction)
    (hs : t.status = TransactionStatus.PENDING) :
    cancelTransaction t = Except.ok { t with status := TransactionStatus.CANCELLED } := by
  simp [cancelTransaction, hs]

lemma cancelTransaction_not_pending (t : Transaction)
    (hs : t.status ≠ TransactionStatus.PENDING) :
    cancelTransaction t = Except.error (LedgerError.InvalidTransition t.status) := by
  simp [cancelTransaction, hs]

lemma txDiff_eq_zero_iff (t : Transaction) :
    txDiff t = 0 ↔ sumDebits t.entries = sumCredits t.entries := by
  unfold txDiff
  exact sub_eq_zero

/-- C1: a transition to POSTED succeeds only if the DEBIT amounts sum to the
CREDIT amounts with exact integer arithmetic; a pending transaction violating
the equality is rejected with UnbalancedTransaction carrying the signed
difference, and an unbalanced transaction never reaches POSTED. -/
theorem C1_post_requires_balance (t : Transaction) :
    (∀ u, postTransaction t = Except.ok u →
        sumDebits t.entries = sumCredits t.entries
          ∧ u.status = TransactionStatus.POSTED)
    ∧ (t.status = TransactionStatus.PENDING →
        sumDebits t.entries ≠ sumCredits t.entries →
        postTransaction t = Except.error (LedgerError.UnbalancedTransaction
          (sumDebits t.entries - sumCredits t.entries)))
    ∧ (sumDebits t.entries ≠ sumCredits t.entries →
        ∀ u, postTransaction t ≠ Except.ok u) := by
  refine ⟨?_, ?_, ?_⟩
  · intro u hu
    by_cases hs : t.status = TransactionStatus.PENDING
    · by_cases hd : txDiff t = 0
      · rw [postTransaction_pending_balanced t hs hd] at hu
        cases hu
        exact ⟨(txDiff_eq_zero_iff t).mp hd, rfl⟩
      · rw [postTransaction_pending_unbalanced t hs hd] at hu
        cases hu
    · rw [postTransaction_not_pending t hs] at hu
      cases hu
  · intro hs hne
    have hd : txDiff t ≠ 0 := fun h => hne ((txDiff_eq_zero_iff t).mp h)
    rw [postTransaction_pending_unbalanced t hs hd]
    rfl
  · intro hne u hu
    have hd : txDiff t ≠ 0 := fun h => hne ((txDiff_eq_zero_iff t).mp h)
    by_cases hs : t.status = TransactionStatus.PENDING
    · rw [postTransaction_pending_unbalanced t hs hd] at hu
      cases hu
    · rw [postTransaction_not_pending t hs] at hu
      cases hu

/-- C1 witness: the unbalanced pending transaction with a 1000 debit against a
900 credit is rejected with the signed difference. -/
theorem C1_post_requires_balance_witness :
    postTransaction wTxUnbalanced
      = Except.error (LedgerError.UnbalancedTransaction
          (sumDebits wTxUnbalanced.entries - sumCredits wTxUnbalanced.entries)) :=
  (C1_post_requires_balance wTxUnbalanced).2.1 rfl (by decide)

/-- C2: a transaction is created in PENDING, may move only along
PENDING to POSTED or PENDING to CANCELLED, and in a terminal state every
further transition attempt fails with InvalidTransition and leaves the stored
transaction unchanged. -/
theorem C2_lifecycle (t : Transaction) :
    (∀ lookup newId d u, createTransaction lookup newId d = Except.ok u →
        u.status = TransactionStatus.PENDING)
    ∧ (∀ u, postTransaction t = Except.ok u →
        t.status = TransactionStatus.PENDING ∧ u.status = TransactionStatus.POSTED)
    ∧ (∀ u, cancelTransaction t = Except.ok u →
        t.status = TransactionStatus.PENDING ∧ u.status = TransactionStatus.CANCELLED)
    ∧ (t.status = TransactionStatus.POSTED ∨ t.status = TransactionStatus.CANCELLED →
        postTransaction t = Except.error (LedgerError.InvalidTransition t.status)
        ∧ cancelTransaction t = Except.error (LedgerError.InvalidTransition t.status)
        ∧ applyPost t = t ∧ applyCancel t = t) := by
  refine ⟨?_, ?_, ?_, ?_⟩
  · intro lookup newId d u hu
    cases hv : validate lookup d with
    | ok v => rw [createTransaction, hv] at hu; cases hu; rfl
    | error e => rw [createTransaction, hv] at hu; cases hu
  · intro u hu
    by_cases hs : t.status = TransactionStatus.PENDING
    · by_cases hd : txDiff t = 0
      · rw [postTransaction_pending_balanced t hs hd] at hu
        cases hu
        exact ⟨hs, rfl⟩
      · rw [postTransaction_pending_unbalanced t hs hd] at hu
        cases hu
    · rw [postTransaction_not_pending t hs] at hu
      cases hu
  · intro u hu
    by_cases hs : t.status = TransactionStatus.PENDING
    · rw [cancelTransaction_pending t hs] at hu
      cases hu
      exact ⟨hs, rfl⟩
    · rw [cancelTransaction_not_pending t hs] at hu
      cases hu
  · intro hterm
    have hs : t.status ≠ TransactionStatus.PENDING := by
      rcases hterm with h | h <;> simp [h]
    refine ⟨postTransaction_not_pending t hs, cancelTransaction_not_pending t hs, ?_, ?_⟩
    · unfold applyPost
      rw [postTransaction_not_pending t hs]
    · unfold applyCancel
      rw [cancelTransaction_not_pending t hs]

/-- C2 witness: a posted transaction rejects both transition attempts with
InvalidTransition and stays unchanged. -/
theorem C2_lifecycle_witness :
    postTransaction wTxPosted
        = Except.error (LedgerError.InvalidTransition wTxPosted.status)
      ∧ cancelTransaction wTxPosted
        = Except.error (LedgerError.InvalidTransition wTxPosted.status)
      ∧ applyPost wTxPosted = wTxPosted ∧ applyCancel wTxPosted = wTxPosted :=
  (C2_lifecycle wTxPosted).2.2.2 (Or.inl rfl)

/-- C7: with the two atomic transitions serialized as section 5 mandates, in
either order on a balanced pending transaction exactly the first call
succeeds, the loser observes the post-transition state and fails with
InvalidTransition, and the final stored state is the winner's result. -/
theorem C7_serialized_post_cancel (t : Transaction)
    (hs : t.status = TransactionStatus.PENDING)
    (hb : sumDebits t.entries = sumCredits t.entries) :
    (runPostThenCancel t).1
        = Except.ok { t with status := TransactionStatus.POSTED }
    ∧ (runPostThenCancel t).2.1
        = Except.error (LedgerError.InvalidTransition TransactionStatus.POSTED)
    ∧ (runPostThenCancel t).2.2 = { t with status := TransactionStatus.POSTED }
    ∧ (runCancelThenPost t).1
        = Except.ok { t with status := TransactionStatus.CANCELLED }
    ∧ (runCancelThenPost t).2.1
        = Except.error (LedgerError.InvalidTransition TransactionStatus.CANCELLED)
    ∧ (runCancelThenPost t).2.2 = { t with status := TransactionStatus.CANCELLED } := by
  have hd : txDiff t = 0 := (txDiff_eq_zero_iff t).mpr hb
  have hpost := postTransaction_pending_balanced t hs hd
  have hcancel := cancelTransaction_pending t hs
  have happly : applyPost t = { t with status := TransactionStatus.POSTED } := by
    unfold applyPost; rw [hpost]
  have happlyC : applyCancel t = { t with status := TransactionStatus.CANCELLED } := by
    unfold applyCancel; rw [hcancel]
  have hposted : ({ t with status := TransactionStatus.POSTED } : Transaction).status
      = TransactionStatus.POSTED := rfl
  have hcancelled : ({ t with status := TransactionStatus.CANCELLED } : Transaction).status
      = TransactionStatus.CANCELLED := rfl
  have hloser1 := cancelTransaction_not_pending
    { t with status := TransactionStatus.POSTED } (by rw [hposted]; intro h; cases h)
  have hloser2 := postTransaction_not_pending
    { t with status := TransactionStatus.CANCELLED } (by rw [hcancelled]; intro h; cases h)
  refine ⟨?_, ?_, ?_, ?_, ?_, ?_⟩
  · show postTransaction t = _
    exact hpost
  · show cancelTransaction (applyPost t) = _
    rw [happly, hloser1]
  · show applyCancel (applyPost t) = _
    rw [happly]
    unfold applyCancel
    rw [hloser1]
  · show cancelTransaction t = _
    exact hcancel
  · show postTransaction (applyCancel t) = _
    rw [happlyC, hloser2]
  · show applyPost (applyCancel t) = _
    rw [happlyC]
    unfold applyPost
    rw [hloser2]

/-- C7 witness: both serializations on the concrete balanced pending
transaction behave as mandated. -/
theorem C7_serialized_post_cancel_witness :
    (runPostThenCancel wTxBalanced).1
        = Except.ok { wTxBalanced with status := TransactionStatus.POSTED }
      ∧ (runPostThenCancel wTxBalanced).2.1
        = Except.error (LedgerError.InvalidTransition TransactionStatus.POSTED) :=
  ⟨((C7_serialized_post_cancel wTxBalanced rfl (by decide))).1,
   ((C7_serialized_post_cancel wTxBalanced rfl (by decide))).2.1⟩

lemma entrySigned_eq_sub (e : TransactionEntry) :
    entrySigned e = entryAmountIf TransactionDirection.CREDIT e
      - entryAmountIf TransactionDirection.DEBIT e := by
  cases e with
  | mk d a => cases d <;> simp [entrySigned, entryAmountIf]

lemma entries_signed_sum (entries : List TransactionEntry) :
    (entries.map entrySigned).sum = sumCredits entries - sumDebits entries := by
  induction entries with
  | nil => simp [sumCredits, sumDebits, sumDirection]
  | cons e es ih =>
      simp only [sumCredits, sumDebits, sumDirection, List.map_cons, List.sum_cons] at ih ⊢
      rw [entrySigned_eq_sub, ih]
      ring

lemma balanceOfOwn_nil (acct : String) : balanceOfOwn acct [] = 0 := rfl

lemma balanceOfOwn_cons (acct : String) (t : Transaction) (txs : List Transaction) :
    balanceOfOwn acct (t :: txs) = txContribution acct t + balanceOfOwn acct txs := by
  simp [balanceOfOwn]

lemma txContribution_not_posted (acct : String) (t : Transaction)
    (h : t.status ≠ TransactionStatus.POSTED) : txContribution acct t = 0 := by
  unfold txContribution
  rw [if_neg]
  intro hc
  exact h hc.2

lemma balanceOfOwn_filter_posted (acct : String) (txs : List Transaction) :
    balanceOfOwn acct (txs.filter fun u => u.status == TransactionStatus.POSTED)
      = balanceOfOwn acct txs := by
  induction txs with
  | nil => rfl
  | cons t ts ih =>
      by_cases h : t.status = TransactionStatus.POSTED
      · rw [List.filter_cons_of_pos (by simp [h]), balanceOfOwn_cons,
            balanceOfOwn_cons, ih]
      · rw [List.filter_cons_of_neg (by simp [h]), balanceOfOwn_cons, ih,
            txContribution_not_posted acct t h]
        ring

/-- C3: with includeDescendants false, balanceOf folds only entries of POSTED
transactions (CREDIT increasing and DEBIT decreasing the balance); PENDING and
CANCELLED transactions never contribute, so cancelling a pending transaction
leaves every account's balance at its value before that transaction was
created. -/
theorem C3_balance_excludes_unposted (parent : String → Option String)
    (accounts : List String) (acct : String) (txs : List Transaction)
    (t : Transaction) :
    balanceOf parent accounts acct false
        (txs.filter fun u => u.status == TransactionStatus.POSTED)
      = balanceOf parent accounts acct false txs
    ∧ (t.status = TransactionStatus.POSTED →
        balanceOf parent accounts acct false (t :: txs)
          = balanceOf parent accounts acct false txs
            + if t.account_id = acct then
                sumCredits t.entries - sumDebits t.entries
              else 0)
    ∧ (t.status ≠ TransactionStatus.POSTED →
        balanceOf parent accounts acct false (t :: txs)
          = balanceOf parent accounts acct false txs)
    ∧ (t.status = TransactionStatus.PENDING →
        balanceOf parent accounts acct false
            ({ t with status := TransactionStatus.CANCELLED } :: txs)
          = balanceOf parent accounts acct false txs) := by
  have hbal : ∀ u : List Transaction,
      balanceOf parent accounts acct false u = balanceOfOwn acct u := by
    intro u
    simp [balanceOf]
  refine ⟨?_, ?_, ?_, ?_⟩
  · rw [hbal, hbal, balanceOfOwn_filter_posted]
  · intro hp
    rw [hbal, hbal, balanceOfOwn_cons]
    unfold txContribution
    by_cases ha : t.account_id = acct
    · rw [if_pos ⟨ha, hp⟩, if_pos ha, entries_signed_sum]
      ring
    · rw [if_neg fun hc => ha hc.1, if_neg ha]
      ring
  · intro hnp
    rw [hbal, hbal, balanceOfOwn_cons, txContribution_not_posted acct t hnp]
    ring
  · intro _
    rw [hbal, hbal, balanceOfOwn_cons,
        txContribution_not_posted acct _ (by intro h; cases h)]
    ring

/-- C3 witness: cancelling the concrete pending transaction leaves the empty
history's balance for its own account unchanged. -/
theorem C3_balance_excludes_unposted_witness :
    balanceOf wParent [] "acct1" false
        ({ wTxBalanced with status := TransactionStatus.CANCELLED } :: [])
      = balanceOf wParent [] "acct1" false [] :=
  (C3_balance_excludes_unposted wParent [] "acct1" [] wTxBalanced).2.2.2 rfl

lemma parentIter_succ_out {α : Type} (parent : α → Option α) (k : Nat) (o : Option α) :
    parentIter parent (k + 1) o = (parentIter parent k o).bind parent := by
  induction k generalizing o with
  | zero => rfl
  | succ n ih =>
      show parentIter parent (n + 1) (o.bind parent)
        = (parentIter parent (n + 1) o).bind parent
      rw [ih (o.bind parent)]
      rfl

lemma parentIter_add {α : Type} (parent : α → Option α) (a b : Nat) (o : Option α) :
    parentIter parent (a + b) o = parentIter parent b (parentIter parent a o) := by
  induction b with
  | zero => rfl
  | succ n ih =>
      rw [show a + (n + 1) = (a + n) + 1 from rfl, parentIter_succ_out,
          parentIter_succ_out, ih]

lemma parentIter_none {α : Type} (parent : α → Option α) (k : Nat) :
    parentIter parent k (none : Option α) = none := by
  induction k with
  | zero => rfl
  | succ n ih =>
      show parentIter parent n ((none : Option α).bind parent) = none
      exact ih

lemma ancestorsWalk_ok_spec {α : Type} (parent : α → Option α) :
    ∀ (fuel : Nat) (o : Option α) (l : List α),
      ancestorsWalk parent fuel o = Except.ok l →
      l.length ≤ fuel
      ∧ (∀ i (h : i < l.length), parentIter parent i o = some (l.get ⟨i, h⟩))
      ∧ parentIter parent l.length o = none := by
  intro fuel
  induction fuel with
  | zero =>
      intro o l h
      cases o with
      | none =>
          cases h
          exact ⟨Nat.le_refl 0, fun i hi => absurd hi (Nat.not_lt_zero i), rfl⟩
      | some a => cases h
  | succ n ih =>
      intro o l h
      cases o with
      | none =>
          cases h
          exact ⟨Nat.zero_le _, fun i hi => absurd hi (Nat.not_lt_zero i), rfl⟩
      | some a =>
          cases hw : ancestorsWalk parent n (parent a) with
          | ok l2 =>
              rw [ancestorsWalk, hw] at h
              cases h
              obtain ⟨hlen, hchain, hend⟩ := ih (parent a) l2 hw
              refine ⟨Nat.succ_le_succ hlen, ?_, ?_⟩
              · intro i hi
                cases i with
                | zero => rfl
                | succ j =>
                    have hj : j < l2.length := Nat.lt_of_succ_lt_succ hi
                    show parentIter parent j (Option.bind (some a) parent)
                      = some ((a :: l2).get ⟨j + 1, hi⟩)
                    exact hchain j hj
              · show parentIter parent l2.length (Option.bind (some a) parent) = none
                exact hend
          | error e =>
              rw [ancestorsWalk, hw] at h
              cases h

lemma parentIter_cycle {α : Type} (parent : α → Option α) (x : α) (p : Nat)
    (hp : parentIter parent p (some x) = some x) :
    ∀ m, parentIter parent (m * p) (some x) = some x := by
  intro m
  induction m with
  | zero => rw [Nat.zero_mul]; rfl
  | succ k ihm =>
      have hmul : (k + 1) * p = k * p + p := by ring
      rw [hmul, parentIter_add, ihm, hp]

lemma ancestorsWalk_ok_nodup {α : Type} (parent : α → Option α) (fuel : Nat)
    (o : Option α) (l : List α) (h : ancestorsWalk parent fuel o = Except.ok l) :
    l.Nodup := by
  obtain ⟨_, hchain, hend⟩ := ancestorsWalk_ok_spec parent fuel o l h
  have key : ∀ i j : Fin l.length, i.val < j.val → l.get i ≠ l.get j := by
    rintro ⟨i, hi⟩ ⟨j, hj⟩ hij heq
    set x := l.get ⟨i, hi⟩ with hx
    have h1 : parentIter parent i o = some x := hchain i hi
    have h2 : parentIter parent j o = some x := by
      rw [hchain j hj, ← heq]
    have hstep : parentIter parent (j - i) (some x) = some x := by
      have : parentIter parent (i + (j - i)) o
          = parentIter parent (j - i) (parentIter parent i o) :=
        parentIter_add parent i (j - i) o
      rw [Nat.add_sub_cancel' (Nat.le_of_lt hij), h2, h1] at this
      exact this.symm
    have hendx : parentIter parent (l.length - i) (some x) = none := by
      have : parentIter parent (i + (l.length - i)) o
          = parentIter parent (l.length - i) (parentIter parent i o) :=
        parentIter_add parent i (l.length - i) o
      rw [Nat.add_sub_cancel' (Nat.le_of_lt hi), hend, h1] at this
      exact this.symm
    have hppos : 0 < j - i := Nat.sub_pos_of_lt hij
    have hcyc := parentIter_cycle parent x (j - i) hstep l.length
    have hbig : l.length - i ≤ l.length * (j - i) := by
      calc l.length - i ≤ l.length := Nat.sub_le _ _
        _ ≤ l.length * (j - i) := Nat.le_mul_of_pos_right _ hppos
    have hnone : parentIter parent (l.length * (j - i)) (some x) = none := by
      have : parentIter parent ((l.length - i) + (l.length * (j - i) - (l.length - i)))
          (some x) = parentIter parent (l.length * (j - i) - (l.length - i))
            (parentIter parent (l.length - i) (some x)) :=
        parentIter_add parent _ _ _
      rw [Nat.add_sub_cancel' hbig, hendx, parentIter_none] at this
      exact this
    rw [hcyc] at hnone
    cases hnone
  rw [List.nodup_iff_injective_get]
  intro i j heq
  rcases Nat.lt_trichotomy i.val j.val with hlt | heqv | hgt
  · exact absurd heq (key i j hlt)
  · exact Fin.ext heqv
  · exact absurd heq.symm (key j i hgt)

lemma ancestorsWalk_error_spec {α : Type} (parent : α → Option α) :
    ∀ (fuel : Nat) (o : Option α) (e : LedgerError),
      ancestorsWalk parent fuel o = Except.error e →
      e = LedgerError.HierarchyCorrupt ∧ parentIter parent fuel o ≠ none := by
  intro fuel
  induction fuel with
  | zero =>
      intro o e h
      cases o with
      | none => cases h
      | some a =>
          cases h
          exact ⟨rfl, by intro hc; cases hc⟩
  | succ n ih =>
      intro o e h
      cases o with
      | none => cases h
      | some a =>
          cases hw : ancestorsWalk parent n (parent a) with
          | ok l2 => rw [ancestorsWalk, hw] at h; cases h
          | error e2 =>
              rw [ancestorsWalk, hw] at h
              cases h
              obtain ⟨he, hiter⟩ := ih (parent a) _ hw
              exact ⟨he, hiter⟩

/-- C6: ancestorsOf always terminates with either an ordered nearest-first
ancestor chain or the HierarchyCorrupt error; a returned chain has no
duplicates, is bounded by the tenant's account count, follows the parent
relation step by step and ends at a root; the error arises only when the
chain exceeds the bound. -/
theorem C6_ancestorsOf_bounded {α : Type} (parent : α → Option α)
    (tenantSize : Nat) (accountId : α) :
    ((∃ l, ancestorsOf parent tenantSize accountId = Except.ok l)
      ∨ ancestorsOf parent tenantSize accountId
          = Except.error LedgerError.HierarchyCorrupt)
    ∧ (∀ l, ancestorsOf parent tenantSize accountId = Except.ok l →
        l.Nodup ∧ l.length ≤ tenantSize
        ∧ (∀ i (h : i < l.length),
            parentIter parent (i + 1) (some accountId) = some (l.get ⟨i, h⟩))
        ∧ parentIter parent (l.length + 1) (some accountId) = none)
    ∧ (∀ e, ancestorsOf parent tenantSize accountId = Except.error e →
        e = LedgerError.HierarchyCorrupt
        ∧ parentIter parent (tenantSize + 1) (some accountId) ≠ none) := by
  refine ⟨?_, ?_, ?_⟩
  · cases hr : ancestorsOf parent tenantSize accountId with
    | ok l => exact Or.inl ⟨l, rfl⟩
    | error e =>
        obtain ⟨he, _⟩ := ancestorsWalk_error_spec parent tenantSize
          (parent accountId) e hr
        exact Or.inr (by rw [he])
  · intro l hl
    obtain ⟨hlen, hchain, hend⟩ := ancestorsWalk_ok_spec parent tenantSize
      (parent accountId) l hl
    refine ⟨ancestorsWalk_ok_nodup parent tenantSize (parent accountId) l hl,
            hlen, ?_, ?_⟩
    · intro i hi
      show parentIter parent i (Option.bind (some accountId) parent)
        = some (l.get ⟨i, hi⟩)
      exact hchain i hi
    · show parentIter parent l.length (Option.bind (some accountId) parent) = none
      exact hend
  · intro e he
    obtain ⟨h1, h2⟩ := ancestorsWalk_error_spec parent tenantSize
      (parent accountId) e he
    refine ⟨h1, ?_⟩
    show parentIter parent tenantSize (Option.bind (some accountId) parent) ≠ none
    exact h2

/-- C6 witness: on the concrete two-account hierarchy, ancestorsOf of the
child returns the duplicate-free singleton chain of the root within bound. -/
theorem C6_ancestorsOf_bounded_witness :
    ancestorsOf wParent 2 "b" = Except.ok ["a"]
      ∧ List.Nodup ["a"] ∧ List.length ["a"] ≤ 2 :=
  ⟨rfl,
   ((C6_ancestorsOf_bounded wParent 2 "b").2.1 ["a"] rfl).1,
   ((C6_ancestorsOf_bounded wParent 2 "b").2.1 ["a"] rfl).2.1⟩

lemma createTable_noop (spec : TableSpec) (s : Store)
    (he : tableExists s spec.tableName = true)
    (hv : verifyTableSchema s spec.tableName spec.expectedColumns = true) :
    createTableIfMissing spec s = { store := s, ddl := [], failed := false } := by
  simp [createTableIfMissing, he, hv]

lemma createTable_failed (spec : TableSpec) (s : Store)
    (hf : (createTableIfMissing spec s).failed = true) :
    createTableIfMissing spec s = { store := s, ddl := [], failed := true } := by
  by_cases h1 : tableExists s spec.tableName = true
  · by_cases h2 : verifyTableSchema s spec.tableName spec.expectedColumns = true
    · simp [createTableIfMissing, h1, h2] at hf
    · simp [createTableIfMissing, h1, h2]
  · simp [createTableIfMissing, h1] at hf

lemma createTable_preserves (spec : TableSpec) (s : Store) (n : String)
    (cols : List String) (h : s n = some cols) :
    (createTableIfMissing spec s).store n = some cols := by
  by_cases h1 : tableExists s spec.tableName = true
  · by_cases h2 : verifyTableSchema s spec.tableName spec.expectedColumns = true <;>
      simp [createTableIfMissing, h1, h2, h]
  · by_cases hn : n = spec.tableName
    · subst hn
      rw [tableExists, h] at h1
      simp at h1
    · simp [createTableIfMissing, h1, hn, h]

lemma runMigrations_preserves (specs : List TableSpec) :
    ∀ (s : Store) (n : String) (cols : List String), s n = some cols →
      (runMigrations specs s).store n = some cols := by
  induction specs with
  | nil => intro s n cols h; exact h
  | cons spec rest ih =>
      intro s n cols h
      show (let r1 := createTableIfMissing spec s;
            if r1.failed then r1
            else
              let r2 := runMigrations rest r1.store
              { store := r2.store, ddl := r1.ddl ++ r2.ddl,
                failed := r2.failed }).store n = some cols
      by_cases hf : (createTableIfMissing spec s).failed = true
      · simp only [hf, if_true]
        rw [createTable_failed spec s hf]
        exact h
      · simp only [hf, if_false, Bool.not_eq_true] at hf ⊢
        simp only [hf, Bool.false_eq_true, if_false]
        exact ih (createTableIfMissing spec s).store n cols
          (createTable_preserves spec s n cols h)

lemma createTable_ok_verified (spec : TableSpec) (s : Store)
    (hg : (spec.expectedColumns.all fun c => spec.createdColumns.contains c) = true)
    (hf : (createTableIfMissing spec s).failed = false) :
    ∃ cols, (createTableIfMissing spec s).store spec.tableName = some cols
      ∧ (spec.expectedColumns.all fun c => cols.contains c) = true := by
  by_cases h1 : tableExists s spec.tableName = true
  · by_cases h2 : verifyTableSchema s spec.tableName spec.expectedColumns = true
    · obtain ⟨cols, hcols⟩ : ∃ cols, s spec.tableName = some cols := by
        cases hsn : s spec.tableName with
        | none => rw [tableExists, hsn] at h1; simp at h1
        | some c => exact ⟨c, rfl⟩
      refine ⟨cols, ?_, ?_⟩
      · rw [createTable_noop spec s h1 h2]
        exact hcols
      · rw [verifyTableSchema, hcols] at h2
        exact h2
    · simp [createTableIfMissing, h1, h2] at hf
  · refine ⟨spec.createdColumns, ?_, hg⟩
    simp [createTableIfMissing, h1]

lemma verify_of_contains (s : Store) (n : String) (expected cols : List String)
    (hc : s n = some cols) (hall : (expected.all fun c => cols.contains c) = true) :
    tableExists s n = true ∧ verifyTableSchema s n expected = true := by
  constructor
  · rw [tableExists, hc]; rfl
  · rw [verifyTableSchema, hc]; exact hall

lemma runMigrations_cons_ok (spec : TableSpec) (rest : List TableSpec) (s : Store)
    (hf : (createTableIfMissing spec s).failed = false) :
    runMigrations (spec :: rest) s =
      { store := (runMigrations rest (createTableIfMissing spec s).store).store,
        ddl := (createTableIfMissing spec s).ddl
          ++ (runMigrations rest (createTableIfMissing spec s).store).ddl,
        failed := (runMigrations rest (createTableIfMissing spec s).store).failed } := by
  show (let r1 := createTableIfMissing spec s;
        if r1.failed then r1
        else
          let r2 := runMigrations rest r1.store
          { store := r2.store, ddl := r1.ddl ++ r2.ddl, failed := r2.failed }) = _
  simp only [hf, Bool.false_eq_true, if_false]

lemma runMigrations_cons_failed (spec : TableSpec) (rest : List TableSpec) (s : Store)
    (hf : (createTableIfMissing spec s).failed = true) :
    runMigrations (spec :: rest) s = { store := s, ddl := [], failed := true } := by
  show (let r1 := createTableIfMissing spec s;
        if r1.failed then r1
        else
          let r2 := runMigrations rest r1.store
          { store := r2.store, ddl := r1.ddl ++ r2.ddl, failed := r2.failed }) = _
  simp only [hf, if_true]
  exact createTable_failed spec s hf

lemma runMigrations_noop (s : Store) :
    ∀ (specs : List TableSpec),
      (∀ spec ∈ specs, tableExists s spec.tableName = true
        ∧ verifyTableSchema s spec.tableName spec.expectedColumns = true) →
      runMigrations specs s = { store := s, ddl := [], failed := false } := by
  intro specs
  induction specs with
  | nil => intro _; rfl
  | cons spec rest ih =>
      intro hg
      obtain ⟨he, hv⟩ := hg spec (List.mem_cons_self spec rest)
      have hstep := createTable_noop spec s he hv
      have hf : (createTableIfMissing spec s).failed = false := by rw [hstep]
      rw [runMigrations_cons_ok spec rest s hf, hstep,
          ih fun sp hsp => hg sp (List.mem_cons_of_mem spec hsp)]
      simp

lemma runMigrations_idem :
    ∀ (specs : List TableSpec),
      (∀ spec ∈ specs,
        (spec.expectedColumns.all fun c => spec.createdColumns.contains c) = true) →
      ∀ (s : Store),
        runMigrations specs (runMigrations specs s).store
          = { store := (runMigrations specs s).store, ddl := [],
              failed := (runMigrations specs s).failed } := by
  intro specs
  induction specs with
  | nil => intro _ s; rfl
  | cons spec rest ih =>
      intro hg s
      have hg1 := hg spec (List.mem_cons_self spec rest)
      have hgr := fun sp hsp => hg sp (List.mem_cons_of_mem spec hsp)
      by_cases hf : (createTableIfMissing spec s).failed = true
      · rw [runMigrations_cons_failed spec rest s hf,
            runMigrations_cons_failed spec rest s hf]
      · rw [Bool.not_eq_true] at hf
        obtain ⟨cols, hcols, hall⟩ := createTable_ok_verified spec s hg1 hf
        rw [runMigrations_cons_ok spec rest s hf]
        have hcols2 : (runMigrations rest (createTableIfMissing spec s).store).store
            spec.tableName = some cols :=
          runMigrations_preserves rest (createTableIfMissing spec s).store
            spec.tableName cols hcols
        obtain ⟨he2, hv2⟩ := verify_of_contains _ spec.tableName
          spec.expectedColumns cols hcols2 hall
        have hstep2 := createTable_noop spec
          (runMigrations rest (createTableIfMissing spec s).store).store he2 hv2
        have hf2 : (createTableIfMissing spec
            (runMigrations rest (createTableIfMissing spec s).store).store).failed
            = false := by rw [hstep2]
        rw [runMigrations_cons_ok spec rest _ hf2, hstep2,
            ih hgr (createTableIfMissing spec s).store]
        simp

/-- C8: against a store whose four tables already exist with all expected
columns, migrateToLatest executes no DDL and succeeds leaving the schema
untouched; and from any starting state a second migrateToLatest run executes
no DDL and leaves the schema exactly as the first run left it. -/
theorem C8_migrateToLatest_idempotent (s : Store) :
    ((∀ spec ∈ migrationTables, tableExists s spec.tableName = true
        ∧ verifyTableSchema s spec.tableName spec.expectedColumns = true) →
      migrateToLatest s = { store := s, ddl := [], failed := false })
    ∧ migrateToLatest (migrateToLatest s).store
        = { store := (migrateToLatest s).store, ddl := [],
            failed := (migrateToLatest s).failed } := by
  constructor
  · intro h
    exact runMigrations_noop s migrationTables h
  · exact runMigrations_idem migrationTables (by decide) s

/-- C8 witness: on the concrete store already holding all four tables with
their expected columns, migrateToLatest is a successful no-op. -/
theorem C8_migrateToLatest_idempotent_witness :
    migrateToLatest wStore = { store := wStore, ddl := [], failed := false } :=
  (C8_migrateToLatest_idempotent wStore).1 (by decide)

/-- C4: the modelled validator rejects drafts with non-integer, zero or
negative amounts with InvalidAmount, as the claim states, but the storage
layer in src/ contradicts the integer-amount contract: migrations.ts declares
the transaction_entries.amount column with sqlite type real, a floating-point
column placing no integrality constraint on stored amounts, so a non-integer
such as one half is storable. -/
theorem C4_amount_column_real_vs_integer_validator :
    transactionEntriesColumnTypes.lookup "amount" = some "real"
    ∧ transactionEntriesColumnTypes.lookup "amount" ≠ some "integer"
    ∧ isIntegerValued (mkRat 1 2) = false
    ∧ validate wLookup wHalfDraft = Except.error LedgerError.InvalidAmount
    ∧ validate wLookup wZeroDraft = Except.error LedgerError.InvalidAmount
    ∧ validate wLookup wNegDraft = Except.error LedgerError.InvalidAmount := by
  refine ⟨rfl, by decide, rfl, rfl, rfl, rfl⟩

/-- C5 counterexample: the in-memory Transaction entity declared in
src/ledger/src/app.ts carries no status field, so the claim that every
Transaction record carries a status in both the persisted row and the
in-memory entity fails on the in-memory side. -/
theorem C5_counterexample_no_status_in_memory :
    "status" ∉ appTransactionFields := by
  decide

/-- C5 amended: the persisted transaction row (schema.ts TransactionsTable,
created by migrations.ts with default PENDING) carries a status field drawn
from PENDING, POSTED, CANCELLED, but the in-memory Transaction entity of
app.ts has no status field. -/
theorem C5_status_only_on_persisted_row :
    "status" ∈ dbTransactionsTableFields
    ∧ "status" ∈ transactionsTable.expectedColumns
    ∧ dbTransactionStatusValues = ["PENDING", "POSTED", "CANCELLED"]
    ∧ transactionsStatusDefault = "PENDING"
    ∧ "status" ∉ appTransactionFields := by
  refine ⟨?_, ?_, rfl, rfl, ?_⟩ <;> decide

/-- C9 counterexample: an internal HierarchyCorrupt-style failure reaching
handleError in production is surfaced to the caller with the internal error
message verbatim in the response body, and nothing is logged, contradicting
the claim that the surfaced message contains no internal detail and that the
failure is logged internally. -/
theorem C9_counterexample_internal_detail_surfaced :
    (handleError { message := "HierarchyCorrupt: cycle detected at account 42",
                   stack := some "stack frames" } 200 NodeEnv.production).1.message
      = "HierarchyCorrupt: cycle detected at account 42"
    ∧ (handleError { message := "HierarchyCorrupt: cycle detected at account 42",
                     stack := some "stack frames" } 200 NodeEnv.production).2
      = false := ⟨rfl, rfl⟩

/-- C9 amended: handleError surfaces the underlying error's own message to the
caller unchanged, with status 500 when the response status is still 200 and
the pre-set status otherwise, and logs the stack only when NODE_ENV is
development and a stack is present. -/
theorem C9_handleError_passthrough (err : JsError) (resStatusCode : Nat)
    (nodeEnv : NodeEnv) :
    (handleError err resStatusCode nodeEnv).1.message = err.message
    ∧ (handleError err resStatusCode nodeEnv).1.statusCode
      = (if resStatusCode ≠ 200 then resStatusCode else 500)
    ∧ ((handleError err resStatusCode nodeEnv).2 = true
      ↔ err.stack.isSome = true ∧ nodeEnv = NodeEnv.development) := by
  refine ⟨rfl, rfl, ?_⟩
  simp [handleError]

/-- C10: getDatabase constructs the store handle lazily on first call, caches
it, returns the identical handle on every later call without changing state,
and after closeDatabase resets the module state the next call constructs a
fresh handle different from the previous one. -/
theorem C10_getDatabase_lazy_idempotent (s : DbState)
    (hw : ∀ h, s.db = some h → h < s.nextHandle) :
    (getDatabase s).2.db = some (getDatabase s).1
    ∧ (∀ h, s.db = some h → getDatabase s = (h, s))
    ∧ getDatabase (getDatabase s).2 = ((getDatabase s).1, (getDatabase s).2)
    ∧ (closeDatabase (getDatabase s).2).db = none
    ∧ (getDatabase (closeDatabase (getDatabase s).2)).1 ≠ (getDatabase s).1 := by
  cases hdb : s.db with
  | some h =>
      have hlt : h < s.nextHandle := hw h hdb
      have h1 : getDatabase s = (h, s) := by rw [getDatabase, hdb]
      refine ⟨?_, ?_, ?_, ?_, ?_⟩
      · rw [h1]; exact hdb
      · intro h2 hdb2
        cases hdb2
        exact h1
      · rw [h1, h1]
      · rw [h1]
        rw [closeDatabase, hdb]
      · rw [h1]
        show (getDatabase (closeDatabase s)).1 ≠ h
        rw [closeDatabase, hdb]
        show s.nextHandle ≠ h
        exact Nat.ne_of_gt hlt
  | none =>
      have h1 : getDatabase s
          = (s.nextHandle, { db := some s.nextHandle, nextHandle := s.nextHandle + 1 }) := by
        rw [getDatabase, hdb]
      refine ⟨?_, ?_, ?_, ?_, ?_⟩
      · rw [h1]
      · intro h2 hdb2
        cases hdb2
      · rw [h1]
        rfl
      · rw [h1]
        rfl
      · rw [h1]
        exact Nat.succ_ne_self s.nextHandle

/-- C10 witness: from a fresh module state, the handle obtained after a close
differs from the one obtained before it. -/
theorem C10_getDatabase_lazy_idempotent_witness :
    (getDatabase (closeDatabase
        (getDatabase { db := none, nextHandle := 0 }).2)).1
      ≠ (getDatabase { db := none, nextHandle := 0 }).1 :=
  (C10_getDatabase_lazy_idempotent { db := none, nextHandle := 0 }
    (fun _ hh => Option.noConfusion hh)).2.2.2.2

end Ledger

